import Mathlib

/-!
Shallow embedding of the email workflow / compliance / bounce-handling core of
the `aileadgen-backend` repository, together with proofs of the behavioural
claims about it.

Conventions of the embedding:
* Python `datetime` values are modelled as `Nat` timestamps measured in
  minutes (workflow step delays `delay_days`/`delay_hours` become
  `days * 1440` / `hours * 60` minutes; the retry backoff `timedelta(minutes=d)`
  becomes `+ d`).
* The JSON files that back each service are modelled as explicit state
  records threaded through each operation; every operation returns its Python
  return value paired with the updated state.
* `email.lower().strip()` is modelled by `normEmail`.
* Free-form `details` dictionaries, logging, business events and the external
  email-history API (`email_service.update_email_status`) do not influence the
  modelled state and are elided.
-/

/-- Replace the first element of a list satisfying `p` by its image under `f`
(the Python pattern `for x in xs: if p(x): mutate(x); break`). -/
def updateFirst (p : α → Bool) (f : α → α) : List α → List α
  | [] => []
  | a :: as => if p a then f a :: as else a :: updateFirst p f as

/-- Remove the first element of a list satisfying `p`
(the Python pattern `xs.remove(found)`). -/
def removeFirst (p : α → Bool) : List α → List α
  | [] => []
  | a :: as => if p a then as else a :: removeFirst p as

/-! ## Email compliance service (`services/email_compliance_service.py`) -/

/-- `str.strip()` on a character list: drop whitespace from both ends. -/
def trimChars (cs : List Char) : List Char :=
  ((cs.dropWhile Char.isWhitespace).reverse.dropWhile Char.isWhitespace).reverse

/-- `email.lower().strip()` — normalisation applied to every email key
(character-level model of Python `str.lower` / `str.strip`). -/
def normEmail (e : String) : String :=
  ⟨trimChars (e.data.map Char.toLower)⟩

/-- `UnsubscribeRecord` (pydantic model); `ip_address`/`user_agent` carry no
behaviour and are elided. -/
structure UnsubscribeRecord where
  email : String
  unsubscribed_at : Nat
  reason : Option String
  source : String
  workflow_id : Option String
  template_id : Option String
deriving DecidableEq

/-- `SuppressionList` entry (pydantic model). -/
structure SuppressionEntry where
  email : String
  reason : String
  added_at : Nat
  source : String
deriving DecidableEq

/-- The two JSON stores owned by `EmailComplianceService`. -/
structure ComplianceState where
  unsubRecords : List UnsubscribeRecord
  suppressions : List SuppressionEntry
deriving DecidableEq

/-- `is_email_suppressed`. -/
def is_email_suppressed (c : ComplianceState) (email : String) : Bool :=
  c.suppressions.any (fun s => s.email == normEmail email)

/-- `add_to_suppression_list`: a no-op returning `True` when the (normalised)
email is already present, otherwise appends one entry. -/
def add_to_suppression_list (now : Nat) (c : ComplianceState)
    (email reason source : String) : Bool × ComplianceState :=
  if is_email_suppressed c email then (true, c)
  else
    (true, { c with
      suppressions := c.suppressions ++ [⟨normEmail email, reason, now, source⟩] })

/-- `unsubscribe_email`: returns `True` immediately when the email is already
suppressed (appending nothing); otherwise appends one `UnsubscribeRecord` and
one `SuppressionEntry` with reason `"unsubscribed"`. -/
def unsubscribe_email (now : Nat) (c : ComplianceState) (email : String)
    (reason : Option String) (source : String)
    (workflow_id template_id : Option String) : Bool × ComplianceState :=
  if is_email_suppressed c email then (true, c)
  else
    let r : UnsubscribeRecord :=
      ⟨normEmail email, now, reason, source, workflow_id, template_id⟩
    let item : SuppressionEntry := ⟨normEmail email, "unsubscribed", now, source⟩
    (true, { c with
      unsubRecords := c.unsubRecords ++ [r],
      suppressions := c.suppressions ++ [item] })

/-- Number of suppression entries recorded for a (normalised) email. -/
def countSup (em : String) (l : List SuppressionEntry) : Nat :=
  (l.filter (fun s => s.email == em)).length

/-! ## Bounce handling service (`services/bounce_handling_service.py`) -/

/-- `BounceRecord` (pydantic model). -/
structure BounceRecord where
  email : String
  bounce_type : String
  bounce_reason : String
  bounced_at : Nat
  resend_id : Option String
  template_id : Option String
  workflow_id : Option String
  bounce_count : Nat
  last_bounce_at : Nat
  delivery_attempts : Nat
deriving DecidableEq

/-- `DeliveryFailure` (pydantic model). -/
structure DeliveryFailure where
  email : String
  failure_reason : String
  failed_at : Nat
  resend_id : Option String
  template_id : Option String
  workflow_id : Option String
  retry_count : Nat
  next_retry_at : Option Nat
  max_retries : Nat
deriving DecidableEq

/-- The stores visible to `BounceHandlingService`: its own two JSON files plus
the compliance service it escalates into. -/
structure BounceState where
  records : List BounceRecord
  failures : List DeliveryFailure
  compliance : ComplianceState
deriving DecidableEq

/-- In-place update of an existing bounce record on a repeat bounce. -/
def bumpBounce (now : Nat) (bounce_type bounce_reason : String) (r : BounceRecord) :
    BounceRecord :=
  { r with
    bounce_count := r.bounce_count + 1,
    last_bounce_at := now,
    delivery_attempts := r.delivery_attempts + 1,
    bounce_reason := bounce_reason,
    bounce_type := bounce_type }

/-- `handle_bounce`: record/increment the `BounceRecord` for the email, then
suppress according to the bounce type (`hard` → immediately with reason
`"bounced"`; `soft` → once the accumulated `bounce_count` reaches 5;
`complaint` → immediately with reason `"complained"`; any other type → no
suppression). Always returns `True` (the external email-history update and
logging are elided). -/
def handle_bounce (now : Nat) (s : BounceState) (email bounce_type bounce_reason : String)
    (resend_id template_id workflow_id : Option String) : Bool × BounceState :=
  let em := normEmail email
  let existing := s.records.find? (fun r => r.email == em)
  let records' := match existing with
    | some _ => updateFirst (fun r => r.email == em)
        (bumpBounce now bounce_type bounce_reason) s.records
    | none => s.records ++
        [⟨em, bounce_type, bounce_reason, now, resend_id, template_id, workflow_id, 1, now, 1⟩]
  let s1 : BounceState := { s with records := records' }
  if bounce_type == "hard" then
    let (_, c') := add_to_suppression_list now s1.compliance em "bounced" "bounce_handler"
    (true, { s1 with compliance := c' })
  else if bounce_type == "soft" then
    -- `current_record = existing_record or records[-1]`
    let current := match existing with
      | some r => bumpBounce now bounce_type bounce_reason r
      | none =>
        ⟨em, bounce_type, bounce_reason, now, resend_id, template_id, workflow_id, 1, now, 1⟩
    if current.bounce_count ≥ 5 then
      let (_, c') := add_to_suppression_list now s1.compliance em "bounced" "bounce_handler"
      (true, { s1 with compliance := c' })
    else (true, s1)
  else if bounce_type == "complaint" then
    let (_, c') := add_to_suppression_list now s1.compliance em "complained" "bounce_handler"
    (true, { s1 with compliance := c' })
  else (true, s1)

/-- In-place update of an existing delivery failure on a repeat failure:
increment `retry_count`, restamp `failed_at`, replace the reason; if retries
remain, reschedule with `next_retry_at = now + 2 ** retry_count * 60` minutes
(the source comment labels `2 ** retry_count * 60` as minutes), otherwise the
old `next_retry_at` is left untouched. -/
def bumpFailure (now : Nat) (reason : String) (f : DeliveryFailure) : DeliveryFailure :=
  let f1 := { f with
    retry_count := f.retry_count + 1, failed_at := now, failure_reason := reason }
  if f1.retry_count < f1.max_retries then
    { f1 with next_retry_at := some (now + 2 ^ f1.retry_count * 60) }
  else f1

/-- `handle_delivery_failure`: first failure for an `(email, resend_id)` pair
creates a `DeliveryFailure` with `retry_count = 0` and a first retry in 5
minutes; a repeat failure bumps the record and either reschedules (retries
remain) or escalates through `handle_bounce(..., "hard", ...)`. -/
def handle_delivery_failure (now : Nat) (s : BounceState) (email reason : String)
    (resend_id template_id workflow_id : Option String) : Bool × BounceState :=
  let em := normEmail email
  match s.failures.find? (fun f => f.email == em && f.resend_id == resend_id) with
  | some f =>
    let s1 : BounceState := { s with
      failures := updateFirst (fun g => g.email == em && g.resend_id == resend_id)
        (bumpFailure now reason) s.failures }
    if f.retry_count + 1 < f.max_retries then (true, s1)
    else
      let (_, s2) := handle_bounce now s1 em "hard"
        ("Max retry attempts reached: " ++ reason) resend_id template_id workflow_id
      (true, s2)
  | none =>
    (true, { s with failures := s.failures ++
      [⟨em, reason, now, resend_id, template_id, workflow_id, 0, some (now + 5), 3⟩] })

/-- `get_emails_for_retry`: all delivery failures that are due
(`next_retry_at ≤ now`) and still have retries left. -/
def get_emails_for_retry (now : Nat) (s : BounceState) : List DeliveryFailure :=
  s.failures.filter (fun f =>
    (f.next_retry_at.any (fun t => decide (t ≤ now))) &&
    decide (f.retry_count < f.max_retries))

/-- `mark_retry_completed`: on success remove the failure record; on failure
increment `retry_count` and either escalate through `handle_bounce` (retries
exhausted — `next_retry_at` keeps its old value) or reschedule with the same
`2 ** retry_count * 60`-minute backoff.  Unlike the other entry points this
function does **not** normalise the email.  Always returns `True`. -/
def mark_retry_completed (now : Nat) (s : BounceState) (email : String)
    (resend_id : Option String) (success : Bool) : Bool × BounceState :=
  let key : DeliveryFailure → Bool := fun f => f.email == email && f.resend_id == resend_id
  match s.failures.find? key with
  | none => (true, s)
  | some f =>
    if success then (true, { s with failures := removeFirst key s.failures })
    else
      let s1 : BounceState := { s with
        failures := updateFirst key (bumpFailure now f.failure_reason) s.failures }
      if f.retry_count + 1 ≥ f.max_retries then
        let (_, s2) := handle_bounce now s1 email "hard" "Max retry attempts reached"
          resend_id none none
        (true, s2)
      else (true, s1)

/-- Iterated bounce handling for one email (`resend_id` etc. absent). -/
def handleBounces (email bt reason : String) (times : List Nat) (s : BounceState) :
    BounceState :=
  times.foldl (fun st t => (handle_bounce t st email bt reason none none none).2) s

/-! ## Workflow service (`services/workflow_service.py`) -/

/-- `WorkflowStep` (pydantic model); `conditions` is an unenforced free-form
map and is elided. -/
structure WorkflowStep where
  id : String
  template_id : String
  delay_days : Nat
  delay_hours : Nat
  order : Nat
deriving DecidableEq

/-- `EmailWorkflow` (pydantic model); the free-form `settings` map and the
statistics fields that `update_workflow` never writes back
(`total_triggered`, `emails_sent`, `open_rate`, `click_rate`,
`last_activity`) are elided — `trigger_workflow`'s attempt to persist
`total_triggered`/`last_activity` goes through `update_workflow`, which
ignores those keys, so they never change in storage. -/
structure EmailWorkflow where
  id : String
  name : String
  description : String
  trigger_type : String
  target_audience : String
  status : String
  steps : List WorkflowStep
  created_at : Nat
  updated_at : Nat
deriving DecidableEq

/-- `WorkflowExecution` (pydantic model). -/
structure WorkflowExecution where
  id : String
  workflow_id : String
  lead_id : String
  status : String
  current_step : Nat
  next_execution : Option Nat
  started_at : Nat
  completed_at : Option Nat
  last_email_sent : Option Nat
deriving DecidableEq

/-- The two JSON stores owned by `WorkflowService`. -/
structure WorkflowState where
  workflows : List EmailWorkflow
  executions : List WorkflowExecution
deriving DecidableEq

/-- The partial-update dictionary accepted by `update_workflow`: only the keys
the function actually reads. -/
structure WorkflowUpdate where
  name : Option String := none
  description : Option String := none
  trigger_type : Option String := none
  target_audience : Option String := none
  status : Option String := none
  steps : Option (List WorkflowStep) := none
deriving DecidableEq

/-- The field merge performed inside `update_workflow` (each field via
`data.get(key, old value)`, `updated_at` restamped, a supplied step list
replacing the old one wholesale with `order` re-derived from position). -/
def applyUpdate (now : Nat) (u : WorkflowUpdate) (w : EmailWorkflow) : EmailWorkflow :=
  { w with
    name := u.name.getD w.name,
    description := u.description.getD w.description,
    trigger_type := u.trigger_type.getD w.trigger_type,
    target_audience := u.target_audience.getD w.target_audience,
    status := u.status.getD w.status,
    steps := match u.steps with
      | some st => st.mapIdx (fun j t => { t with order := j + 1 })
      | none => w.steps,
    updated_at := now }

/-- `get_workflow`. -/
def get_workflow (s : WorkflowState) (wid : String) : Option EmailWorkflow :=
  s.workflows.find? (fun w => w.id == wid)

/-- `update_workflow`: merge the supplied fields into the first workflow with
the given id; `None` when the id is unknown. -/
def update_workflow (now : Nat) (s : WorkflowState) (wid : String) (u : WorkflowUpdate) :
    Option EmailWorkflow × WorkflowState :=
  match s.workflows.find? (fun w => w.id == wid) with
  | none => (none, s)
  | some w =>
    (some (applyUpdate now u w),
     { s with workflows := updateFirst (fun w => w.id == wid) (applyUpdate now u) s.workflows })

/-- `pause_workflow`: `update_workflow(id, {"status": "paused"})`. -/
def pause_workflow (now : Nat) (s : WorkflowState) (wid : String) :
    Option EmailWorkflow × WorkflowState :=
  update_workflow now s wid { status := some "paused" }

/-- `activate_workflow`: `update_workflow(id, {"status": "active"})`. -/
def activate_workflow (now : Nat) (s : WorkflowState) (wid : String) :
    Option EmailWorkflow × WorkflowState :=
  update_workflow now s wid { status := some "active" }

/-- Delay of a step in minutes (`delay_days`/`delay_hours` guards as in the
source; in this `Nat` model the positivity guards are redundant but kept). -/
def stepDelay (st : WorkflowStep) : Nat :=
  (if st.delay_days > 0 then st.delay_days * 1440 else 0) +
  (if st.delay_hours > 0 then st.delay_hours * 60 else 0)

/-- Delay of the first step, 0 for an empty step list
(`trigger_workflow`'s first-step scheduling). -/
def firstStepDelay (steps : List WorkflowStep) : Nat :=
  match steps with
  | [] => 0
  | st :: _ => stepDelay st

/-- `trigger_workflow`: fail when the workflow is missing or not `"active"`;
succeed without change when an active execution for `(workflow_id, lead_id)`
already exists; otherwise append a fresh execution at `current_step = 0` due
at `now +` the first step's delay, then write back the statistics through
`update_workflow` (which only restamps `updated_at`, see `EmailWorkflow`). -/
def trigger_workflow (now : Nat) (s : WorkflowState) (wid lid : String) :
    Bool × WorkflowState :=
  match s.workflows.find? (fun w => w.id == wid) with
  | none => (false, s)
  | some w =>
    if w.status != "active" then (false, s)
    else
      match s.executions.find?
          (fun e => e.workflow_id == wid && e.lead_id == lid && e.status == "active") with
      | some _ => (true, s)
      | none =>
        let ex : WorkflowExecution :=
          ⟨"exec_" ++ wid ++ "_" ++ lid ++ "_" ++ toString now, wid, lid, "active", 0,
           some (now + firstStepDelay w.steps), now, none, none⟩
        let s1 : WorkflowState := { s with executions := s.executions ++ [ex] }
        let (_, s2) := update_workflow now s1 wid {}
        (true, s2)

/-- `get_pending_executions`: every execution with `status == "active"` and a
due `next_execution`. -/
def get_pending_executions (now : Nat) (s : WorkflowState) : List WorkflowExecution :=
  s.executions.filter (fun e =>
    e.status == "active" && e.next_execution.any (fun t => decide (t ≤ now)))

/-- The per-execution update performed by `complete_execution_step` once the
execution and its workflow have been found. -/
def advanceExecution (now : Nat) (w : EmailWorkflow) (success : Bool)
    (e : WorkflowExecution) : WorkflowExecution :=
  let e1 := { e with last_email_sent := some now }
  if success then
    if e1.current_step + 1 ≥ w.steps.length then
      { e1 with current_step := e1.current_step + 1, status := "completed", completed_at := some now, next_execution := none }
    else
      { e1 with current_step := e1.current_step + 1, next_execution := some (now + stepDelay (w.steps.getD (e1.current_step + 1) ⟨"", "", 0, 0, 0⟩)) }
  else
    { e1 with status := "failed", next_execution := none }

/-- `complete_execution_step`: find the execution by id (regardless of its
status), find its workflow, and advance: on success `current_step += 1`,
completing when the new index reaches `len(steps)`, otherwise scheduling the
new current step; on failure mark `"failed"`. `False` when execution or
workflow is missing. -/
def complete_execution_step (now : Nat) (s : WorkflowState) (eid : String)
    (success : Bool) : Bool × WorkflowState :=
  match s.executions.find? (fun e => e.id == eid) with
  | none => (false, s)
  | some e =>
    match s.workflows.find? (fun w => w.id == e.workflow_id) with
    | none => (false, s)
    | some w =>
      (true, { s with executions := updateFirst (fun e2 => e2.id == eid) (advanceExecution now w success) s.executions })

/-- Number of active executions for a `(workflow_id, lead_id)` pair. -/
def countActive (s : WorkflowState) (wid lid : String) : Nat :=
  (s.executions.filter
    (fun e => e.workflow_id == wid && e.lead_id == lid && e.status == "active")).length

/-- At most one active execution per `(workflow_id, lead_id)` pair. -/
def atMostOneActive (s : WorkflowState) : Prop :=
  ∀ wid lid, countActive s wid lid ≤ 1

/-- States of a single-workflow store reachable through `trigger_workflow` and
`complete_execution_step`, the latter restricted to executions that are still
`"active"` — the scheduler contract: `complete_execution_step` is invoked for
executions returned by `get_pending_executions`, which are all active. -/
inductive WfReach (w : EmailWorkflow) : WorkflowState → Prop
  | init : WfReach w ⟨[w], []⟩
  | trigger (s : WorkflowState) (now : Nat) (lid : String) :
      WfReach w s → WfReach w (trigger_workflow now s w.id lid).2
  | complete (s : WorkflowState) (now : Nat) (eid : String) (success : Bool) :
      WfReach w s →
      (∀ e ∈ s.executions, e.id = eid → e.status = "active") →
      WfReach w (complete_execution_step now s eid success).2

/-- Per-execution invariant for C2. -/
def ExecInv (w : EmailWorkflow) (e : WorkflowExecution) : Prop :=
  e.workflow_id = w.id ∧ e.current_step ≤ w.steps.length ∧
  (e.current_step = w.steps.length ↔ e.status = "completed")

/-! ## Unsubscribe token (`generate_unsubscribe_link` / `verify_unsubscribe_token`) -/

/-- `token.split(":")` on a character list. -/
def splitOnChar (c : Char) : List Char → List (List Char)
  | [] => [[]]
  | a :: as =>
    if a = c then [] :: splitOnChar c as
    else
      match splitOnChar c as with
      | [] => [[a]]
      | g :: gs => (a :: g) :: gs

/-- `str(n)` for a non-negative int, as a character list. -/
def natToChars (n : Nat) : List Char :=
  if n = 0 then ['0']
  else ((Nat.digits 10 n).map (fun d => Char.ofNat (48 + d))).reverse

/-- Digit character to its value. -/
def charToDigit (c : Char) : Nat := c.toNat - 48

/-- `float(s)` restricted to the unsigned-integer strings produced by
`natToChars`; any non-numeric string fails (the Python exception is caught and
turned into `None` by the caller). -/
def charsToNat? (cs : List Char) : Option Nat :=
  if cs ≠ [] ∧ cs.all (fun c => c.isDigit) then
    some (Nat.ofDigits 10 ((cs.map charToDigit).reverse))
  else none

/-- The token embedded in `generate_unsubscribe_link`'s URL:
`base64(f"{email}:{timestamp}:{hash16}")` where `hash16` is the first 16 hex
characters of `sha256(f"{email}:{timestamp}:{secret}")`.  The base64 layer is
elided (encode/decode cancel), and the sha256 hexdigest prefix is abstracted
as the `digest` parameter — every theorem below holds for an arbitrary
digest function whose output contains no `':'` (true of hex digests). -/
def generate_unsubscribe_token (digest : List Char → List Char) (secret : List Char)
    (now : Nat) (email : List Char) : List Char :=
  email ++ ':' :: (natToChars now ++ ':' ::
    digest (email ++ ':' :: (natToChars now ++ ':' :: secret)))

/-- `verify_unsubscribe_token`: split on `':'`, demand exactly three parts,
recompute and compare the digest, parse the timestamp, reject tokens older
than 30 days (2592000 seconds), and return the email and timestamp. -/
def verify_unsubscribe_token (digest : List Char → List Char) (secret : List Char)
    (now : Nat) (token : List Char) : Option (List Char × List Char) :=
  match splitOnChar ':' token with
  | [email, ts, tokenHash] =>
    if tokenHash ≠ digest (email ++ ':' :: (ts ++ ':' :: secret)) then none
    else
      match charsToNat? ts with
      | none => none
      | some t => if t + 2592000 < now then none else some (email, ts)
  | _ => none

/-! ## Theorems -/

theorem updateFirst_of_find?_eq_none (p : α → Bool) (f : α → α) (l : List α)
    (h : l.find? p = none) : updateFirst p f l = l := by
  induction l with
  | nil => rfl
  | cons a as ih =>
    by_cases hpa : p a = true
    · rw [List.find?_cons_of_pos _ hpa] at h
      exact absurd h (by simp)
    · rw [List.find?_cons_of_neg _ hpa] at h
      simp only [updateFirst, if_neg hpa]
      rw [ih h]

theorem find?_updateFirst_self (p : α → Bool) (f : α → α)
    (hpf : ∀ a, p a = true → p (f a) = true) (l : List α) :
    (updateFirst p f l).find? p = (l.find? p).map f := by
  induction l with
  | nil => rfl
  | cons a as ih =>
    by_cases hpa : p a = true
    · simp only [updateFirst, if_pos hpa, List.find?_cons_of_pos _ hpa,
        List.find?_cons_of_pos _ (hpf a hpa), Option.map_some']
    · simp only [updateFirst, if_neg hpa, List.find?_cons_of_neg _ hpa]
      exact ih

theorem mem_updateFirst (p : α → Bool) (f : α → α) (l : List α) (x : α)
    (hx : x ∈ updateFirst p f l) :
    x ∈ l ∨ ∃ a, a ∈ l ∧ p a = true ∧ x = f a := by
  induction l with
  | nil => simp [updateFirst] at hx
  | cons a as ih =>
    by_cases hpa : p a = true
    · simp only [updateFirst] at hx
      rw [if_pos hpa] at hx
      rcases List.mem_cons.mp hx with h1 | h1
      · exact Or.inr ⟨a, List.mem_cons_self a as, hpa, h1⟩
      · exact Or.inl (List.mem_cons_of_mem a h1)
    · simp only [updateFirst] at hx
      rw [if_neg hpa] at hx
      rcases List.mem_cons.mp hx with h1 | h1
      · exact Or.inl (h1 ▸ List.mem_cons_self a as)
      · rcases ih h1 with h2 | ⟨b, hb, hpb, hxb⟩
        · exact Or.inl (List.mem_cons_of_mem a h2)
        · exact Or.inr ⟨b, List.mem_cons_of_mem a hb, hpb, hxb⟩

theorem find?_append_of_none (p : α → Bool) (l : List α) (x : α)
    (h : l.find? p = none) :
    (l ++ [x]).find? p = if p x then some x else none := by
  induction l with
  | nil =>
    by_cases hpx : p x = true
    · simp [List.find?_cons_of_pos _ hpx, hpx]
    · simp [List.find?_cons_of_neg _ hpx, hpx]
  | cons a as ih =>
    by_cases hpa : p a = true
    · rw [List.find?_cons_of_pos _ hpa] at h
      exact absurd h (by simp)
    · rw [List.find?_cons_of_neg _ hpa] at h
      rw [List.cons_append, List.find?_cons_of_neg _ hpa, ih h]

theorem find?_append_of_some (p : α → Bool) (l l₂ : List α) (x : α)
    (h : l.find? p = some x) : (l ++ l₂).find? p = some x := by
  induction l with
  | nil => simp [List.find?] at h
  | cons a as ih =>
    by_cases hpa : p a = true
    · rw [List.find?_cons_of_pos _ hpa] at h
      rw [List.cons_append, List.find?_cons_of_pos _ hpa]
      exact h
    · rw [List.find?_cons_of_neg _ hpa] at h
      rw [List.cons_append, List.find?_cons_of_neg _ hpa]
      exact ih h

theorem countSup_pos_iff_suppressed (c : ComplianceState) (email : String) :
    is_email_suppressed c email = true ↔ 0 < countSup (normEmail email) c.suppressions := by
  unfold is_email_suppressed countSup
  rw [List.any_eq_true, List.length_pos_iff_exists_mem]
  constructor
  · rintro ⟨s, hs, hps⟩
    exact ⟨s, List.mem_filter.mpr ⟨hs, hps⟩⟩
  · rintro ⟨s, hs⟩
    rcases List.mem_filter.mp hs with ⟨h1, h2⟩
    exact ⟨s, h1, h2⟩

theorem countSup_append_self (em reason source : String) (now : Nat)
    (l : List SuppressionEntry) :
    countSup em (l ++ [⟨em, reason, now, source⟩]) = countSup em l + 1 := by
  unfold countSup
  rw [List.filter_append, List.length_append]
  simp

theorem add_of_suppressed (now : Nat) (c : ComplianceState) (email reason source : String)
    (h : is_email_suppressed c email = true) :
    add_to_suppression_list now c email reason source = (true, c) := by
  unfold add_to_suppression_list
  rw [if_pos h]

theorem add_of_not_suppressed (now : Nat) (c : ComplianceState) (email reason source : String)
    (h : is_email_suppressed c email = false) :
    add_to_suppression_list now c email reason source =
      (true, { c with
        suppressions := c.suppressions ++ [⟨normEmail email, reason, now, source⟩] }) := by
  unfold add_to_suppression_list
  rw [if_neg (by simp [h])]

theorem suppressed_after_add (now : Nat) (c : ComplianceState) (email reason source : String) :
    is_email_suppressed (add_to_suppression_list now c email reason source).2 email = true := by
  by_cases h : is_email_suppressed c email = true
  · rw [add_of_suppressed now c email reason source h]
    exact h
  · have h' : is_email_suppressed c email = false := by simpa using h
    rw [add_of_not_suppressed now c email reason source h']
    unfold is_email_suppressed at *
    simp [List.any_append]

/-- C7: adding the same email to the suppression list twice (whatever the
reasons, sources and call times) leaves exactly one entry for the normalised
email, and both calls — in particular the second — return `True`; moreover the
second call does not change the state at all. -/
theorem suppression_add_idempotent (now₁ now₂ : Nat) (c : ComplianceState)
    (email reason₁ source₁ reason₂ source₂ : String)
    (h : countSup (normEmail email) c.suppressions ≤ 1) :
    (add_to_suppression_list now₁ c email reason₁ source₁).1 = true ∧
    (add_to_suppression_list now₂
        (add_to_suppression_list now₁ c email reason₁ source₁).2 email reason₂ source₂).1
      = true ∧
    countSup (normEmail email)
        (add_to_suppression_list now₂
          (add_to_suppression_list now₁ c email reason₁ source₁).2 email reason₂
          source₂).2.suppressions
      = 1 ∧
    (add_to_suppression_list now₂
        (add_to_suppression_list now₁ c email reason₁ source₁).2 email reason₂ source₂).2
      = (add_to_suppression_list now₁ c email reason₁ source₁).2 := by
  have hcount1 : countSup (normEmail email)
      (add_to_suppression_list now₁ c email reason₁ source₁).2.suppressions = 1 := by
    by_cases hs : is_email_suppressed c email = true
    · rw [add_of_suppressed now₁ c email reason₁ source₁ hs]
      have := (countSup_pos_iff_suppressed c email).mp hs
      show countSup (normEmail email) c.suppressions = 1
      omega
    · have hs' : is_email_suppressed c email = false := by simpa using hs
      rw [add_of_not_suppressed now₁ c email reason₁ source₁ hs']
      have hzero : countSup (normEmail email) c.suppressions = 0 := by
        by_contra hne
        exact absurd ((countSup_pos_iff_suppressed c email).mpr (by omega)) (by simp [hs'])
      simpa [countSup_append_self] using hzero
  have hsup1 := suppressed_after_add now₁ c email reason₁ source₁
  have hsecond := add_of_suppressed now₂
    (add_to_suppression_list now₁ c email reason₁ source₁).2 email reason₂ source₂ hsup1
  refine ⟨?_, ?_, ?_, ?_⟩
  · by_cases hs : is_email_suppressed c email = true
    · rw [add_of_suppressed now₁ c email reason₁ source₁ hs]
    · rw [add_of_not_suppressed now₁ c email reason₁ source₁ (by simpa using hs)]
  · rw [hsecond]
  · rw [hsecond]
    exact hcount1
  · rw [hsecond]

/-- C7 witness: a concrete run of the double-add starting from an empty
suppression store. -/
theorem suppression_add_idempotent_witness :
    (add_to_suppression_list 7
        (add_to_suppression_list 3 ⟨[], []⟩ "a@b.com" "bounced" "bounce_handler").2
        "a@b.com" "manual" "manual").1 = true ∧
    countSup (normEmail "a@b.com")
        (add_to_suppression_list 7
          (add_to_suppression_list 3 ⟨[], []⟩ "a@b.com" "bounced" "bounce_handler").2
          "a@b.com" "manual" "manual").2.suppressions = 1 := by
  have h := suppression_add_idempotent 3 7 ⟨[], []⟩ "a@b.com" "bounced" "bounce_handler"
    "manual" "manual" (by decide)
  exact ⟨h.2.1, h.2.2.1⟩

/-- C8 counterexample: for an email that is already suppressed (here by a prior
bounce), `unsubscribe_email` returns `True` but appends **no**
`UnsubscribeRecord` — the audit trail stays empty, contrary to the claim that
every call appends one record even when the email is already suppressed. -/
theorem unsubscribe_audit_counterexample :
    (unsubscribe_email 5 ⟨[], [⟨"a@b.com", "bounced", 0, "bounce_handler"⟩]⟩
        "a@b.com" none "email_link" none none).1 = true ∧
    (unsubscribe_email 5 ⟨[], [⟨"a@b.com", "bounced", 0, "bounce_handler"⟩]⟩
        "a@b.com" none "email_link" none none).2.unsubRecords = [] := by
  constructor <;> rfl

/-- C8 amended: `unsubscribe_email` appends a new `UnsubscribeRecord` (and a
`SuppressionEntry` with reason `"unsubscribed"`) only when the email is not yet
suppressed; when it is already suppressed the call is a pure no-op that still
returns `True`.  Either way the call returns `True` and afterwards a
`SuppressionEntry` exists for the email. -/
theorem unsubscribe_email_spec (now : Nat) (c : ComplianceState) (email : String)
    (reason : Option String) (source : String) (wid tid : Option String) :
    (is_email_suppressed c email = false →
      unsubscribe_email now c email reason source wid tid =
        (true, ⟨c.unsubRecords ++ [⟨normEmail email, now, reason, source, wid, tid⟩],
                c.suppressions ++ [⟨normEmail email, "unsubscribed", now, source⟩]⟩)) ∧
    (is_email_suppressed c email = true →
      unsubscribe_email now c email reason source wid tid = (true, c)) ∧
    (unsubscribe_email now c email reason source wid tid).1 = true ∧
    is_email_suppressed (unsubscribe_email now c email reason source wid tid).2 email
      = true := by
  by_cases hs : is_email_suppressed c email = true
  · have heq : unsubscribe_email now c email reason source wid tid = (true, c) := by
      unfold unsubscribe_email
      rw [if_pos hs]
    refine ⟨fun hf => absurd hs (by simp [hf]), fun _ => heq, by rw [heq], by rw [heq]; exact hs⟩
  · have hs' : is_email_suppressed c email = false := by simpa using hs
    have heq : unsubscribe_email now c email reason source wid tid =
        (true, ⟨c.unsubRecords ++ [⟨normEmail email, now, reason, source, wid, tid⟩],
                c.suppressions ++ [⟨normEmail email, "unsubscribed", now, source⟩]⟩) := by
      unfold unsubscribe_email
      rw [if_neg hs]
    refine ⟨fun _ => heq, fun ht => absurd ht hs, by rw [heq], ?_⟩
    rw [heq]
    unfold is_email_suppressed
    simp [List.any_append]

/-- C8 witness: concrete first-time unsubscribe appends exactly one audit
record and one suppression entry. -/
theorem unsubscribe_email_spec_witness :
    unsubscribe_email 4 ⟨[], []⟩ "a@b.com" none "email_link" none none =
      (true, ⟨[⟨"a@b.com", 4, none, "email_link", none, none⟩],
              [⟨"a@b.com", "unsubscribed", 4, "email_link"⟩]⟩) := by
  have h := (unsubscribe_email_spec 4 ⟨[], []⟩ "a@b.com" none "email_link" none none).1
    (by decide)
  rw [h]
  decide

theorem handle_soft_bounce_fresh (now : Nat) (s : BounceState) (email reason : String)
    (hrec : s.records.find? (fun r => r.email == normEmail email) = none) :
    handle_bounce now s email "soft" reason none none none =
      (true, { s with records := s.records ++
        [⟨normEmail email, "soft", reason, now, none, none, none, 1, now, 1⟩] }) := by
  simp [handle_bounce, hrec]

theorem handle_soft_bounce_repeat_low (now : Nat) (s : BounceState) (email reason : String)
    (r : BounceRecord)
    (hrec : s.records.find? (fun x => x.email == normEmail email) = some r)
    (hlow : r.bounce_count + 1 < 5) :
    handle_bounce now s email "soft" reason none none none =
      (true, { s with records := updateFirst (fun x => x.email == normEmail email) (bumpBounce now "soft" reason) s.records }) := by
  simp [handle_bounce, hrec, bumpBounce]
  omega

theorem handle_soft_bounce_repeat_high (now : Nat) (s : BounceState) (email reason : String)
    (r : BounceRecord)
    (hrec : s.records.find? (fun x => x.email == normEmail email) = some r)
    (hhigh : r.bounce_count + 1 ≥ 5) :
    handle_bounce now s email "soft" reason none none none =
      (true, { s with
        records := updateFirst (fun x => x.email == normEmail email) (bumpBounce now "soft" reason) s.records,
        compliance := (add_to_suppression_list now s.compliance (normEmail email)
          "bounced" "bounce_handler").2 }) := by
  simp [handle_bounce, hrec, bumpBounce]
  omega

theorem soft_bounce_chain (email reason : String) (ts : List Nat) :
    ∀ (s : BounceState) (r : BounceRecord),
      s.records.find? (fun x => x.email == normEmail email) = some r →
      r.bounce_count + ts.length < 5 →
      (handleBounces email "soft" reason ts s).compliance = s.compliance ∧
      (handleBounces email "soft" reason ts s).records.find?
          (fun x => x.email == normEmail email)
        = some { r with
            bounce_count := r.bounce_count + ts.length,
            last_bounce_at := ts.getLastD r.last_bounce_at,
            delivery_attempts := r.delivery_attempts + ts.length,
            bounce_reason := if ts.isEmpty then r.bounce_reason else reason,
            bounce_type := if ts.isEmpty then r.bounce_type else "soft" } := by
  induction ts with
  | nil =>
    intro s r hrec hlt
    refine ⟨rfl, ?_⟩
    simpa [handleBounces] using hrec
  | cons t ts ih =>
    intro s r hrec hlt
    simp only [List.length_cons] at hlt
    have hstep := handle_soft_bounce_repeat_low t s email reason r hrec (by omega)
    have hchain : handleBounces email "soft" reason (t :: ts) s =
        handleBounces email "soft" reason ts
          (handle_bounce t s email "soft" reason none none none).2 := by
      simp [handleBounces]
    rw [hchain, hstep]
    have hfind2 : (updateFirst (fun x => x.email == normEmail email)
        (bumpBounce t "soft" reason) s.records).find? (fun x => x.email == normEmail email)
        = some (bumpBounce t "soft" reason r) := by
      rw [find?_updateFirst_self _ _ (fun a ha => by simpa [bumpBounce] using ha), hrec]
      rfl
    have hres := ih ({ s with records := updateFirst (fun x => x.email == normEmail email) (bumpBounce t "soft" reason) s.records }) (bumpBounce t "soft" reason r) hfind2 (by simp [bumpBounce]; omega)
    refine ⟨hres.1, ?_⟩
    rw [hres.2]
    cases ts with
    | nil => simp [bumpBounce]
    | cons t2 ts2 =>
      simp [bumpBounce, List.getLastD]
      omega

/-- C5: for an email with no prior bounce record and not on the suppression
list, four soft bounces leave it unsuppressed and the fifth (when the
accumulated `bounce_count` reaches 5) suppresses it. -/
theorem soft_bounce_threshold (email reason : String) (s : BounceState)
    (t1 t2 t3 t4 t5 : Nat)
    (hnorm : normEmail email = email)
    (hrec : s.records.find? (fun r => r.email == normEmail email) = none)
    (hsup : is_email_suppressed s.compliance email = false) :
    is_email_suppressed
        (handleBounces email "soft" reason [t1, t2, t3, t4] s).compliance email = false ∧
    is_email_suppressed
        (handleBounces email "soft" reason [t1, t2, t3, t4, t5] s).compliance email
      = true := by
  have hstep1 := handle_soft_bounce_fresh t1 s email reason hrec
  set new0 : BounceRecord :=
    ⟨normEmail email, "soft", reason, t1, none, none, none, 1, t1, 1⟩ with hnew0
  set s1 : BounceState := { s with records := s.records ++ [new0] } with hs1
  have hfind1 : s1.records.find? (fun r => r.email == normEmail email) = some new0 := by
    show (s.records ++ [new0]).find? (fun r => r.email == normEmail email) = some new0
    rw [find?_append_of_none _ _ _ hrec]
    simp [hnew0]
  have hchain4 : handleBounces email "soft" reason [t1, t2, t3, t4] s =
      handleBounces email "soft" reason [t2, t3, t4] s1 := by
    simp [handleBounces, hstep1]
  have h4 := soft_bounce_chain email reason [t2, t3, t4] s1 new0 hfind1 (by simp [hnew0])
  constructor
  · rw [hchain4, h4.1]
    exact hsup
  · have h5split : handleBounces email "soft" reason [t1, t2, t3, t4, t5] s =
        (handle_bounce t5 (handleBounces email "soft" reason [t1, t2, t3, t4] s)
          email "soft" reason none none none).2 := by
      simp [handleBounces]
    have hhigh : ({ new0 with
        bounce_count := new0.bounce_count + [t2, t3, t4].length,
        last_bounce_at := [t2, t3, t4].getLastD new0.last_bounce_at,
        delivery_attempts := new0.delivery_attempts + [t2, t3, t4].length,
        bounce_reason := if [t2, t3, t4].isEmpty then new0.bounce_reason else reason,
        bounce_type := if [t2, t3, t4].isEmpty then new0.bounce_type else "soft"
        : BounceRecord }).bounce_count + 1 ≥ 5 := by
      simp [hnew0]
    have hstep5 := handle_soft_bounce_repeat_high t5
      (handleBounces email "soft" reason [t2, t3, t4] s1) email reason _ h4.2 hhigh
    rw [h5split, hchain4, hstep5]
    show is_email_suppressed
      (add_to_suppression_list t5
        (handleBounces email "soft" reason [t2, t3, t4] s1).compliance
        (normEmail email) "bounced" "bounce_handler").2 email = true
    rw [hnorm]
    exact suppressed_after_add t5 _ email "bounced" "bounce_handler"

/-- C5 witness: a concrete run from the empty stores. -/
theorem soft_bounce_threshold_witness :
    is_email_suppressed
        (handleBounces "a@b.com" "soft" "mailbox full" [1, 2, 3, 4]
          ⟨[], [], ⟨[], []⟩⟩).compliance "a@b.com" = false ∧
    is_email_suppressed
        (handleBounces "a@b.com" "soft" "mailbox full" [1, 2, 3, 4, 5]
          ⟨[], [], ⟨[], []⟩⟩).compliance "a@b.com" = true :=
  soft_bounce_threshold "a@b.com" "mailbox full" ⟨[], [], ⟨[], []⟩⟩ 1 2 3 4 5
    (by decide) (by decide) (by decide)

theorem handle_bounce_other_step (now : Nat) (s : BounceState)
    (email bt reason : String) (rid tid wid : Option String)
    (h1 : bt ≠ "hard") (h2 : bt ≠ "soft") (h3 : bt ≠ "complaint") :
    handle_bounce now s email bt reason rid tid wid =
      (true, { s with records :=
        match s.records.find? (fun r => r.email == normEmail email) with
        | some _ => updateFirst (fun r => r.email == normEmail email)
            (bumpBounce now bt reason) s.records
        | none => s.records ++
            [⟨normEmail email, bt, reason, now, rid, tid, wid, 1, now, 1⟩] }) := by
  unfold handle_bounce
  simp only [beq_iff_eq, if_neg h1, if_neg h2, if_neg h3]

/-- C10: for every bounce type outside `hard` / `soft` / `complaint` (for
example `"invalid"`), `handle_bounce` returns `True` and creates or increments
the bounce record for the email, but leaves the whole compliance state — in
particular the suppression list — untouched; iterating any number of such
bounces still leaves the compliance state untouched. -/
theorem bounce_other_type_never_suppresses (email bt reason : String)
    (rid tid wid : Option String)
    (h1 : bt ≠ "hard") (h2 : bt ≠ "soft") (h3 : bt ≠ "complaint") :
    (∀ now s, (handle_bounce now s email bt reason rid tid wid).1 = true ∧
      (handle_bounce now s email bt reason rid tid wid).2.compliance = s.compliance ∧
      (handle_bounce now s email bt reason rid tid wid).2.records =
        (match s.records.find? (fun r => r.email == normEmail email) with
         | some _ => updateFirst (fun r => r.email == normEmail email)
             (bumpBounce now bt reason) s.records
         | none => s.records ++
             [⟨normEmail email, bt, reason, now, rid, tid, wid, 1, now, 1⟩])) ∧
    (∀ ts s, (handleBounces email bt reason ts s).compliance = s.compliance) := by
  constructor
  · intro now s
    rw [handle_bounce_other_step now s email bt reason rid tid wid h1 h2 h3]
    exact ⟨rfl, rfl, rfl⟩
  · intro ts
    induction ts with
    | nil => intro s; rfl
    | cons t ts ih =>
      intro s
      have hchain : handleBounces email bt reason (t :: ts) s =
          handleBounces email bt reason ts
            (handle_bounce t s email bt reason none none none).2 := by
        simp [handleBounces]
      rw [hchain, ih, handle_bounce_other_step t s email bt reason none none none h1 h2 h3]

/-- C10 witness: a concrete `"invalid"` bounce against the empty stores. -/
theorem bounce_other_type_never_suppresses_witness :
    (handle_bounce 9 ⟨[], [], ⟨[], []⟩⟩ "a@b.com" "invalid" "bad address"
        none none none).1 = true ∧
    (handle_bounce 9 ⟨[], [], ⟨[], []⟩⟩ "a@b.com" "invalid" "bad address"
        none none none).2.compliance = (⟨[], []⟩ : ComplianceState) ∧
    (handleBounces "a@b.com" "invalid" "bad address" [1, 2, 3, 4, 5, 6]
        ⟨[], [], ⟨[], []⟩⟩).compliance = (⟨[], []⟩ : ComplianceState) := by
  have h := bounce_other_type_never_suppresses "a@b.com" "invalid" "bad address"
    none none none (by decide) (by decide) (by decide)
  exact ⟨(h.1 9 ⟨[], [], ⟨[], []⟩⟩).1, (h.1 9 ⟨[], [], ⟨[], []⟩⟩).2.1,
    h.2 [1, 2, 3, 4, 5, 6] ⟨[], [], ⟨[], []⟩⟩⟩

theorem bumpFailure_email (now : Nat) (reason : String) (f : DeliveryFailure) :
    (bumpFailure now reason f).email = f.email := by
  unfold bumpFailure
  by_cases h : f.retry_count + 1 < f.max_retries <;> simp [h]

theorem bumpFailure_resend_id (now : Nat) (reason : String) (f : DeliveryFailure) :
    (bumpFailure now reason f).resend_id = f.resend_id := by
  unfold bumpFailure
  by_cases h : f.retry_count + 1 < f.max_retries <;> simp [h]

theorem bumpFailure_retry_count (now : Nat) (reason : String) (f : DeliveryFailure) :
    (bumpFailure now reason f).retry_count = f.retry_count + 1 := by
  unfold bumpFailure
  by_cases h : f.retry_count + 1 < f.max_retries <;> simp [h]

theorem bumpFailure_keeps_key (email : String) (rid : Option String) (now : Nat)
    (reason : String) :
    ∀ g, (g.email == email && g.resend_id == rid) = true →
      ((bumpFailure now reason g).email == email &&
        (bumpFailure now reason g).resend_id == rid) = true := by
  intro g hg
  rw [bumpFailure_email, bumpFailure_resend_id]
  exact hg

/-- C3 counterexample: starting from a pending `DeliveryFailure` with
`retry_count = 0` and `max_retries = 3`, a repeat failure at time 1000
reschedules `next_retry_at` to `1000 + 2 ^ 1 * 60 = 1120` minutes — two hours
— and not to `1000 + 2 ^ 1 = 1002` minutes as the claim's
`now + 2^retry_count minutes` formula would require. -/
theorem backoff_formula_counterexample :
    ((handle_delivery_failure 1000
        ⟨[], [⟨"a@b.com", "x", 0, some "r1", none, none, 0, some 5, 3⟩], ⟨[], []⟩⟩
        "a@b.com" "x" (some "r1") none none).2.failures.map
      (fun f => f.next_retry_at)) = [some 1120] ∧ (1120 : Nat) ≠ 1000 + 2 ^ 1 := by
  exact ⟨rfl, by decide⟩

/-- C3 amended: on a repeat failure with retries remaining — whether reported
through `handle_delivery_failure` or through `mark_retry_completed` with
`success = False` — the failure record is rescheduled with
`next_retry_at = now + 2 ^ retry_count * 60` minutes (`retry_count` already
incremented; `mark_retry_completed` leaves the failure reason unchanged), so
across consecutive failures with non-decreasing clock the scheduled retry time
strictly increases. -/
theorem backoff_monotone (now : Nat) (s : BounceState) (email reason : String)
    (rid tid wid : Option String) (f : DeliveryFailure)
    (hnorm : normEmail email = email)
    (hfind : s.failures.find? (fun g => g.email == email && g.resend_id == rid) = some f)
    (hlt : f.retry_count + 1 < f.max_retries) :
    (handle_delivery_failure now s email reason rid tid wid).2.failures.find?
        (fun g => g.email == email && g.resend_id == rid)
      = some { f with retry_count := f.retry_count + 1, failed_at := now, failure_reason := reason, next_retry_at := some (now + 2 ^ (f.retry_count + 1) * 60) } ∧
    (mark_retry_completed now s email rid false).2.failures.find?
        (fun g => g.email == email && g.resend_id == rid)
      = some { f with retry_count := f.retry_count + 1, failed_at := now, next_retry_at := some (now + 2 ^ (f.retry_count + 1) * 60) } ∧
    (∀ prev last, f.next_retry_at = some prev → prev = last + 2 ^ f.retry_count * 60 →
      last ≤ now → prev < now + 2 ^ (f.retry_count + 1) * 60) := by
  have hstep : handle_delivery_failure now s email reason rid tid wid =
      (true, { s with failures := updateFirst (fun g => g.email == email && g.resend_id == rid) (bumpFailure now reason) s.failures }) := by
    unfold handle_delivery_failure
    simp only [hnorm, hfind, if_pos hlt]
  have hstepM : mark_retry_completed now s email rid false =
      (true, { s with failures := updateFirst (fun g => g.email == email && g.resend_id == rid) (bumpFailure now f.failure_reason) s.failures }) := by
    unfold mark_retry_completed
    simp only [hfind, Bool.false_eq_true, if_false,
      if_neg (by omega : ¬ (f.retry_count + 1 ≥ f.max_retries))]
  refine ⟨?_, ?_, ?_⟩
  · rw [hstep]
    show (updateFirst (fun g => g.email == email && g.resend_id == rid)
      (bumpFailure now reason) s.failures).find?
        (fun g => g.email == email && g.resend_id == rid) = _
    rw [find?_updateFirst_self _ _ (fun a ha => by
        simpa using bumpFailure_keeps_key email rid now reason a (by simpa using ha)) s.failures,
      hfind]
    simp [bumpFailure, hlt]
  · rw [hstepM]
    show (updateFirst (fun g => g.email == email && g.resend_id == rid)
      (bumpFailure now f.failure_reason) s.failures).find?
        (fun g => g.email == email && g.resend_id == rid) = _
    rw [find?_updateFirst_self _ _ (fun a ha => by
        simpa using bumpFailure_keeps_key email rid now f.failure_reason a (by simpa using ha))
      s.failures, hfind]
    simp [bumpFailure, hlt]
  · intro prev last hprev heq hle
    have hpow : 2 ^ (f.retry_count + 1) = 2 ^ f.retry_count * 2 := pow_succ 2 f.retry_count
    have hge1 : 1 ≤ 2 ^ f.retry_count := Nat.one_le_two_pow
    have key : ∀ a l n : Nat, 1 ≤ a → l ≤ n → l + a * 60 < n + a * 2 * 60 := by
      intro a l n ha hln
      omega
    rw [hpow, heq]
    exact key (2 ^ f.retry_count) last now hge1 hle

/-- C3 witness: a concrete repeat failure (count 0 → 1) is rescheduled from 60
to `100 + 2 ^ 1 * 60 = 220` — strictly later — by both entry points. -/
theorem backoff_monotone_witness :
    ((handle_delivery_failure 100
        ⟨[], [⟨"a@b.com", "x", 0, some "r1", none, none, 0, some 60, 3⟩], ⟨[], []⟩⟩
        "a@b.com" "x" (some "r1") none none).2.failures.find?
        (fun g => g.email == "a@b.com" && g.resend_id == some "r1"))
      = some ⟨"a@b.com", "x", 100, some "r1", none, none, 1, some 220, 3⟩ ∧
    ((mark_retry_completed 100
        ⟨[], [⟨"a@b.com", "x", 0, some "r1", none, none, 0, some 60, 3⟩], ⟨[], []⟩⟩
        "a@b.com" (some "r1") false).2.failures.find?
        (fun g => g.email == "a@b.com" && g.resend_id == some "r1"))
      = some ⟨"a@b.com", "x", 100, some "r1", none, none, 1, some 220, 3⟩ ∧
    (60 : Nat) < 100 + 2 ^ (0 + 1) * 60 := by
  have h := backoff_monotone 100
    ⟨[], [⟨"a@b.com", "x", 0, some "r1", none, none, 0, some 60, 3⟩], ⟨[], []⟩⟩
    "a@b.com" "x" (some "r1") none none
    ⟨"a@b.com", "x", 0, some "r1", none, none, 0, some 60, 3⟩
    (by decide) (by decide) (by decide)
  exact ⟨h.1.trans (by decide), h.2.1.trans (by decide),
    h.2.2 60 0 rfl (by decide) (by decide)⟩

theorem bumpFailure_max_retries (now : Nat) (reason : String) (f : DeliveryFailure) :
    (bumpFailure now reason f).max_retries = f.max_retries := by
  unfold bumpFailure
  by_cases h : f.retry_count + 1 < f.max_retries <;> simp [h]

theorem filter_updateFirst_of_unique (p : α → Bool) (f : α → α) (l : List α) (a : α)
    (hpf : ∀ x, p x = true → p (f x) = true)
    (hfind : l.find? p = some a) (hcount : (l.filter p).length ≤ 1) :
    (updateFirst p f l).filter p = [f a] := by
  induction l with
  | nil => simp [List.find?] at hfind
  | cons b bs ih =>
    by_cases hpb : p b = true
    · rw [List.find?_cons_of_pos _ hpb] at hfind
      have hab : b = a := by injection hfind
      subst hab
      have hnil : bs.filter p = [] := by
        rw [List.filter_cons_of_pos hpb] at hcount
        rw [List.length_cons] at hcount
        exact List.length_eq_zero.mp (by omega)
      simp only [updateFirst, if_pos hpb]
      rw [List.filter_cons_of_pos (hpf b hpb), hnil]
    · rw [List.find?_cons_of_neg _ hpb] at hfind
      have hcount2 : (bs.filter p).length ≤ 1 := by
        rwa [List.filter_cons_of_neg hpb] at hcount
      simp only [updateFirst, if_neg hpb]
      rw [List.filter_cons_of_neg hpb]
      exact ih hfind hcount2

theorem handle_bounce_hard_step (now : Nat) (s : BounceState) (email reason : String)
    (rid tid wid : Option String) :
    handle_bounce now s email "hard" reason rid tid wid =
      (true, { s with
        records := (match s.records.find? (fun r => r.email == normEmail email) with
          | some _ => updateFirst (fun r => r.email == normEmail email) (bumpBounce now "hard" reason) s.records
          | none => s.records ++ [⟨normEmail email, "hard", reason, now, rid, tid, wid, 1, now, 1⟩]),
        compliance := (add_to_suppression_list now s.compliance (normEmail email) "bounced" "bounce_handler").2 }) := by
  cases hf : s.records.find? (fun r => r.email == normEmail email) with
  | none => simp [handle_bounce, hf]
  | some r => simp [handle_bounce, hf]

theorem exhausted_state_spec (now : Nat) (s t : BounceState) (email br : String)
    (rid : Option String) (f : DeliveryFailure)
    (hnorm : normEmail email = email)
    (hfind : s.failures.find? (fun g => g.email == email && g.resend_id == rid) = some f)
    (hcount : (s.failures.filter (fun g => g.email == email && g.resend_id == rid)).length ≤ 1)
    (hexh : f.retry_count + 1 ≥ f.max_retries)
    (hc : t.compliance =
      (add_to_suppression_list now s.compliance email "bounced" "bounce_handler").2)
    (hf : t.failures = updateFirst (fun g => g.email == email && g.resend_id == rid)
      (bumpFailure now br) s.failures) :
    is_email_suppressed t.compliance email = true ∧
    (is_email_suppressed s.compliance email = false →
      t.compliance.suppressions.find? (fun e => e.email == email) =
        some ⟨email, "bounced", now, "bounce_handler"⟩) ∧
    (∀ now2 g, g ∈ get_emails_for_retry now2 t →
      (g.email == email && g.resend_id == rid) = false) := by
  refine ⟨?_, ?_, ?_⟩
  · rw [hc]
    exact suppressed_after_add now s.compliance email "bounced" "bounce_handler"
  · intro hss
    rw [hc, add_of_not_suppressed now s.compliance email "bounced" "bounce_handler" hss]
    show (s.compliance.suppressions ++
        [(⟨normEmail email, "bounced", now, "bounce_handler"⟩ : SuppressionEntry)]).find?
      (fun e => e.email == email) = some ⟨email, "bounced", now, "bounce_handler"⟩
    have hnone : s.compliance.suppressions.find? (fun e => e.email == email) = none := by
      unfold is_email_suppressed at hss
      rw [hnorm] at hss
      rw [List.find?_eq_none]
      intro x hx hpx
      have hany : s.compliance.suppressions.any (fun e => e.email == email) = true :=
        List.any_eq_true.mpr ⟨x, hx, hpx⟩
      rw [hany] at hss
      cases hss
    rw [hnorm, find?_append_of_none _ _ _ hnone]
    simp
  · intro now2 g hg
    unfold get_emails_for_retry at hg
    rcases List.mem_filter.mp hg with ⟨hmem, hcond⟩
    simp only [Bool.and_eq_true] at hcond
    rcases hcond with ⟨_, hdec⟩
    have hglt : g.retry_count < g.max_retries := of_decide_eq_true hdec
    by_contra hkg
    have hkg' : (g.email == email && g.resend_id == rid) = true := by
      cases hb : (g.email == email && g.resend_id == rid) with
      | true => rfl
      | false => exact absurd hb hkg
    rw [hf] at hmem
    have hmem2 : g ∈ (updateFirst (fun g => g.email == email && g.resend_id == rid)
        (bumpFailure now br) s.failures).filter
        (fun g => g.email == email && g.resend_id == rid) :=
      List.mem_filter.mpr ⟨hmem, hkg'⟩
    rw [filter_updateFirst_of_unique _ _ _ f (bumpFailure_keeps_key email rid now br)
      hfind hcount] at hmem2
    have hgf : g = bumpFailure now br f := by simpa using hmem2
    rw [hgf, bumpFailure_retry_count, bumpFailure_max_retries] at hglt
    omega

/-- C4 counterexample: a failure for an email that is already suppressed for
another reason (`"unsubscribed"`) exhausts its retries; the escalation's
`add_to_suppression_list` is a no-op, so no `SuppressionEntry` with reason
`"bounced"` is ever created, contrary to the claim. -/
theorem retry_exhaustion_counterexample :
    ((mark_retry_completed 50
        ⟨[], [⟨"a@b.com", "x", 0, some "r1", none, none, 2, some 10, 3⟩],
         ⟨[], [⟨"a@b.com", "unsubscribed", 0, "email_link"⟩]⟩⟩
        "a@b.com" (some "r1") false).2.compliance.suppressions.filter
      (fun e => e.reason == "bounced")) = [] ∧
    (⟨"a@b.com", "x", 0, some "r1", none, none, 2, some 10, 3⟩ :
      DeliveryFailure).retry_count + 1 ≥ 3 := by
  exact ⟨rfl, by decide⟩

/-- C4 amended: when a delivery failure's `retry_count` reaches `max_retries`
(via a repeat `handle_delivery_failure` or a failed `mark_retry_completed`),
the email ends up on the suppression list — with a new entry of reason
`"bounced"` whenever the email was not already suppressed (an email already
suppressed for another reason keeps its existing entry) — and no failure for
that `(email, resend_id)` pair is returned by `get_emails_for_retry` any
more. -/
theorem retry_exhaustion_escalates (now : Nat) (s : BounceState) (email reason : String)
    (rid tid wid : Option String) (f : DeliveryFailure)
    (hnorm : normEmail email = email)
    (hfind : s.failures.find? (fun g => g.email == email && g.resend_id == rid) = some f)
    (hcount : (s.failures.filter
      (fun g => g.email == email && g.resend_id == rid)).length ≤ 1)
    (hexh : f.retry_count + 1 ≥ f.max_retries) :
    (is_email_suppressed
        (handle_delivery_failure now s email reason rid tid wid).2.compliance email = true ∧
      (is_email_suppressed s.compliance email = false →
        (handle_delivery_failure now s email reason rid tid
            wid).2.compliance.suppressions.find? (fun e => e.email == email)
          = some ⟨email, "bounced", now, "bounce_handler"⟩) ∧
      (∀ now2 g,
        g ∈ get_emails_for_retry now2 (handle_delivery_failure now s email reason rid tid wid).2 →
        (g.email == email && g.resend_id == rid) = false)) ∧
    (is_email_suppressed
        (mark_retry_completed now s email rid false).2.compliance email = true ∧
      (is_email_suppressed s.compliance email = false →
        (mark_retry_completed now s email rid
            false).2.compliance.suppressions.find? (fun e => e.email == email)
          = some ⟨email, "bounced", now, "bounce_handler"⟩) ∧
      (∀ now2 g,
        g ∈ get_emails_for_retry now2 (mark_retry_completed now s email rid false).2 →
        (g.email == email && g.resend_id == rid) = false)) := by
  constructor
  · have hstepA : handle_delivery_failure now s email reason rid tid wid =
        (true, (handle_bounce now { s with failures := updateFirst (fun g => g.email == email && g.resend_id == rid) (bumpFailure now reason) s.failures } email "hard" ("Max retry attempts reached: " ++ reason) rid tid wid).2) := by
      unfold handle_delivery_failure
      simp only [hnorm, hfind,
        if_neg (by omega : ¬ (f.retry_count + 1 < f.max_retries))]
    have hcA : ((handle_bounce now { s with failures := updateFirst (fun g => g.email == email && g.resend_id == rid) (bumpFailure now reason) s.failures } email "hard" ("Max retry attempts reached: " ++ reason) rid tid wid).2).compliance =
        (add_to_suppression_list now s.compliance email "bounced" "bounce_handler").2 := by
      rw [handle_bounce_hard_step, hnorm]
    have hfA : ((handle_bounce now { s with failures := updateFirst (fun g => g.email == email && g.resend_id == rid) (bumpFailure now reason) s.failures } email "hard" ("Max retry attempts reached: " ++ reason) rid tid wid).2).failures =
        updateFirst (fun g => g.email == email && g.resend_id == rid)
          (bumpFailure now reason) s.failures := by
      rw [handle_bounce_hard_step]
    rw [hstepA]
    exact exhausted_state_spec now s _ email reason rid f hnorm hfind hcount hexh hcA hfA
  · have hstepB : mark_retry_completed now s email rid false =
        (true, (handle_bounce now { s with failures := updateFirst (fun g => g.email == email && g.resend_id == rid) (bumpFailure now f.failure_reason) s.failures } email "hard" "Max retry attempts reached" rid none none).2) := by
      unfold mark_retry_completed
      simp only [hfind, if_pos hexh, Bool.false_eq_true, if_false]
    have hcB : ((handle_bounce now { s with failures := updateFirst (fun g => g.email == email && g.resend_id == rid) (bumpFailure now f.failure_reason) s.failures } email "hard" "Max retry attempts reached" rid none none).2).compliance =
        (add_to_suppression_list now s.compliance email "bounced" "bounce_handler").2 := by
      rw [handle_bounce_hard_step, hnorm]
    have hfB : ((handle_bounce now { s with failures := updateFirst (fun g => g.email == email && g.resend_id == rid) (bumpFailure now f.failure_reason) s.failures } email "hard" "Max retry attempts reached" rid none none).2).failures =
        updateFirst (fun g => g.email == email && g.resend_id == rid)
          (bumpFailure now f.failure_reason) s.failures := by
      rw [handle_bounce_hard_step]
    rw [hstepB]
    exact exhausted_state_spec now s _ email f.failure_reason rid f hnorm hfind hcount hexh
      hcB hfB

/-- C4 witness: a concrete exhaustion creates the `"bounced"` entry and the
email ends up suppressed. -/
theorem retry_exhaustion_escalates_witness :
    is_email_suppressed
      (handle_delivery_failure 50
        ⟨[], [⟨"a@b.com", "x", 0, some "r1", none, none, 2, some 10, 3⟩], ⟨[], []⟩⟩
        "a@b.com" "x" (some "r1") none none).2.compliance "a@b.com" = true ∧
    (handle_delivery_failure 50
        ⟨[], [⟨"a@b.com", "x", 0, some "r1", none, none, 2, some 10, 3⟩], ⟨[], []⟩⟩
        "a@b.com" "x" (some "r1") none none).2.compliance.suppressions.find?
      (fun e => e.email == "a@b.com") = some ⟨"a@b.com", "bounced", 50, "bounce_handler"⟩ := by
  have h := retry_exhaustion_escalates 50
    ⟨[], [⟨"a@b.com", "x", 0, some "r1", none, none, 2, some 10, 3⟩], ⟨[], []⟩⟩
    "a@b.com" "x" (some "r1") none none
    ⟨"a@b.com", "x", 0, some "r1", none, none, 2, some 10, 3⟩
    (by decide) (by decide) (by decide) (by decide)
  exact ⟨h.1.1, h.1.2.1 (by decide)⟩

theorem trigger_existing_noop (now : Nat) (s : WorkflowState) (wid lid : String)
    (w : EmailWorkflow) (e : WorkflowExecution)
    (hw : s.workflows.find? (fun w => w.id == wid) = some w)
    (hact : w.status = "active")
    (hex : s.executions.find?
      (fun e => e.workflow_id == wid && e.lead_id == lid && e.status == "active") = some e) :
    trigger_workflow now s wid lid = (true, s) := by
  unfold trigger_workflow
  simp [hw, hex, hact]

theorem trigger_create (now : Nat) (s : WorkflowState) (wid lid : String)
    (w : EmailWorkflow)
    (hw : s.workflows.find? (fun w => w.id == wid) = some w)
    (hact : w.status = "active")
    (hnone : s.executions.find?
      (fun e => e.workflow_id == wid && e.lead_id == lid && e.status == "active") = none) :
    trigger_workflow now s wid lid =
      (true,
       ⟨updateFirst (fun w => w.id == wid) (applyUpdate now {}) s.workflows,
        s.executions ++
          [⟨"exec_" ++ wid ++ "_" ++ lid ++ "_" ++ toString now, wid, lid, "active", 0,
            some (now + firstStepDelay w.steps), now, none, none⟩]⟩) := by
  unfold trigger_workflow update_workflow
  simp [hw, hnone, hact]

theorem applyUpdate_id (now : Nat) (u : WorkflowUpdate) (w : EmailWorkflow) :
    (applyUpdate now u w).id = w.id := by
  unfold applyUpdate
  rfl

theorem applyUpdate_empty_status (now : Nat) (w : EmailWorkflow) :
    (applyUpdate now {} w).status = w.status := by
  unfold applyUpdate
  rfl

/-- C1: when the workflow exists and is active, triggering it for a lead
succeeds, and triggering it again — while the execution recorded by the first
call is still active — returns success with the state completely unchanged;
and when every `(workflow_id, lead_id)` pair had at most one active execution
before the first call, that is still true after it. -/
theorem trigger_idempotent_single_active (now1 now2 : Nat) (s : WorkflowState)
    (wid lid : String) (w : EmailWorkflow)
    (hw : s.workflows.find? (fun w => w.id == wid) = some w)
    (hact : w.status = "active")
    (hinv : atMostOneActive s) :
    (trigger_workflow now1 s wid lid).1 = true ∧
    trigger_workflow now2 (trigger_workflow now1 s wid lid).2 wid lid =
      (true, (trigger_workflow now1 s wid lid).2) ∧
    atMostOneActive (trigger_workflow now1 s wid lid).2 := by
  cases hfe : s.executions.find?
      (fun e => e.workflow_id == wid && e.lead_id == lid && e.status == "active") with
  | some e =>
    have h1 := trigger_existing_noop now1 s wid lid w e hw hact hfe
    have h2 := trigger_existing_noop now2 s wid lid w e hw hact hfe
    rw [h1]
    exact ⟨rfl, h2, hinv⟩
  | none =>
    have h1 := trigger_create now1 s wid lid w hw hact hfe
    rw [h1]
    set ex : WorkflowExecution :=
      ⟨"exec_" ++ wid ++ "_" ++ lid ++ "_" ++ toString now1, wid, lid, "active", 0,
       some (now1 + firstStepDelay w.steps), now1, none, none⟩ with hexdef
    set sN : WorkflowState :=
      ⟨updateFirst (fun w => w.id == wid) (applyUpdate now1 {}) s.workflows,
       s.executions ++ [ex]⟩ with hsN
    have hwN : sN.workflows.find? (fun w => w.id == wid) = some (applyUpdate now1 {} w) := by
      show (updateFirst (fun w => w.id == wid) (applyUpdate now1 {}) s.workflows).find?
        (fun w => w.id == wid) = some (applyUpdate now1 {} w)
      rw [find?_updateFirst_self _ _ (fun a ha => by rw [applyUpdate_id]; exact ha), hw]
      rfl
    have hactN : (applyUpdate now1 {} w).status = "active" := by
      rw [applyUpdate_empty_status]
      exact hact
    have hexN : sN.executions.find?
        (fun e => e.workflow_id == wid && e.lead_id == lid && e.status == "active")
        = some ex := by
      show (s.executions ++ [ex]).find? _ = some ex
      rw [find?_append_of_none _ _ _ hfe]
      simp [hexdef]
    have h2 := trigger_existing_noop now2 sN wid lid (applyUpdate now1 {} w) ex hwN hactN hexN
    refine ⟨rfl, h2, ?_⟩
    intro wid2 lid2
    show (List.filter (fun e => e.workflow_id == wid2 && e.lead_id == lid2 &&
      e.status == "active") (s.executions ++ [ex])).length ≤ 1
    rw [List.filter_append, List.length_append]
    by_cases hp : (ex.workflow_id == wid2 && ex.lead_id == lid2 &&
        ex.status == "active") = true
    · have hpair : wid = wid2 ∧ lid = lid2 := by
        rw [hexdef] at hp
        simp at hp
        exact ⟨hp.1, hp.2⟩
      rcases hpair with ⟨hw2, hl2⟩
      subst hw2
      subst hl2
      have hzero : (List.filter (fun e => e.workflow_id == wid && e.lead_id == lid &&
          e.status == "active") s.executions).length = 0 := by
        rw [List.length_eq_zero, List.filter_eq_nil_iff]
        rw [List.find?_eq_none] at hfe
        exact hfe
      rw [hzero]
      simp [hp]
    · have hone : List.filter (fun e => e.workflow_id == wid2 && e.lead_id == lid2 &&
          e.status == "active") [ex] = [] := List.filter_cons_of_neg hp
      rw [hone]
      have h3 := hinv wid2 lid2
      unfold countActive at h3
      simpa using h3

/-- C1 witness: concrete double trigger of a one-step workflow. -/
theorem trigger_idempotent_single_active_witness :
    (trigger_workflow 10 ⟨[⟨"wf1", "n", "", "manual", "all_leads", "active",
        [⟨"s1", "t1", 0, 0, 1⟩], 0, 0⟩], []⟩ "wf1" "lead1").1 = true ∧
    trigger_workflow 20 (trigger_workflow 10 ⟨[⟨"wf1", "n", "", "manual", "all_leads",
        "active", [⟨"s1", "t1", 0, 0, 1⟩], 0, 0⟩], []⟩ "wf1" "lead1").2 "wf1" "lead1" =
      (true, (trigger_workflow 10 ⟨[⟨"wf1", "n", "", "manual", "all_leads", "active",
        [⟨"s1", "t1", 0, 0, 1⟩], 0, 0⟩], []⟩ "wf1" "lead1").2) := by
  have h := trigger_idempotent_single_active 10 20
    ⟨[⟨"wf1", "n", "", "manual", "all_leads", "active", [⟨"s1", "t1", 0, 0, 1⟩], 0, 0⟩], []⟩
    "wf1" "lead1"
    ⟨"wf1", "n", "", "manual", "all_leads", "active", [⟨"s1", "t1", 0, 0, 1⟩], 0, 0⟩
    (by decide) (by decide) (by intro wid lid; simp [countActive])
  exact ⟨h.1, h.2.1⟩

theorem pause_workflow_eq (now : Nat) (s : WorkflowState) (wid : String)
    (w : EmailWorkflow)
    (hw : s.workflows.find? (fun w => w.id == wid) = some w) :
    pause_workflow now s wid =
      (some (applyUpdate now { status := some "paused" } w),
       { s with workflows := updateFirst (fun w => w.id == wid) (applyUpdate now { status := some "paused" }) s.workflows }) := by
  unfold pause_workflow update_workflow
  rw [hw]

theorem applyUpdate_paused_status (now : Nat) (w : EmailWorkflow) :
    (applyUpdate now { status := some "paused" } w).status = "paused" := by
  unfold applyUpdate
  rfl

theorem applyUpdate_paused_steps (now : Nat) (w : EmailWorkflow) :
    (applyUpdate now { status := some "paused" } w).steps = w.steps := by
  unfold applyUpdate
  rfl

theorem complete_step_true_of_found (t : Nat) (s2 : WorkflowState) (eid : String)
    (e : WorkflowExecution) (w2 : EmailWorkflow) (success : Bool)
    (hfe : s2.executions.find? (fun e2 => e2.id == eid) = some e)
    (hfw : s2.workflows.find? (fun w3 => w3.id == e.workflow_id) = some w2) :
    (complete_execution_step t s2 eid success).1 = true := by
  simp only [complete_execution_step, hfe, hfw]

theorem trigger_fails_of_not_active (t : Nat) (s2 : WorkflowState) (wid lid : String)
    (w2 : EmailWorkflow)
    (hfw : s2.workflows.find? (fun w3 => w3.id == wid) = some w2)
    (hst : w2.status = "paused") :
    trigger_workflow t s2 wid lid = (false, s2) := by
  unfold trigger_workflow
  rw [hfw]
  simp [hst]

/-- C6: pausing a workflow rewrites only that workflow's record (status
becomes `"paused"`, `updated_at` is restamped, every other workflow is
untouched); the executions store is byte-for-byte unchanged, so pending
executions at any later time are the same as before the pause, an execution of
the paused workflow can still be advanced by `complete_execution_step`, while
every new `trigger_workflow` on the paused workflow fails and creates
nothing. -/
theorem pause_frame (now : Nat) (s : WorkflowState) (wid : String)
    (w : EmailWorkflow)
    (hw : s.workflows.find? (fun w => w.id == wid) = some w) :
    (pause_workflow now s wid).2.executions = s.executions ∧
    (pause_workflow now s wid).2.workflows =
      updateFirst (fun w => w.id == wid)
        (applyUpdate now { status := some "paused" }) s.workflows ∧
    (∀ t, get_pending_executions t (pause_workflow now s wid).2 =
      get_pending_executions t s) ∧
    (∀ t eid e success, s.executions.find? (fun e2 => e2.id == eid) = some e →
      e.workflow_id = wid →
      (complete_execution_step t (pause_workflow now s wid).2 eid success).1 = true) ∧
    (∀ t lid, trigger_workflow t (pause_workflow now s wid).2 wid lid =
      (false, (pause_workflow now s wid).2)) := by
  rw [pause_workflow_eq now s wid w hw]
  have hwN : (updateFirst (fun w => w.id == wid)
      (applyUpdate now { status := some "paused" }) s.workflows).find?
      (fun w => w.id == wid) = some (applyUpdate now { status := some "paused" } w) := by
    rw [find?_updateFirst_self _ _ (fun a ha => by rw [applyUpdate_id]; exact ha), hw]
    rfl
  refine ⟨rfl, rfl, fun t => rfl, ?_, ?_⟩
  · intro t eid e success hfe hwid
    exact complete_step_true_of_found t _ eid e
      (applyUpdate now { status := some "paused" } w) success hfe
      (by rw [hwid]; exact hwN)
  · intro t lid
    exact trigger_fails_of_not_active t _ wid lid
      (applyUpdate now { status := some "paused" } w) hwN
      (applyUpdate_paused_status now w)

/-- C6 witness: pausing a concrete one-step workflow with one active, due
execution — the execution survives, stays pending, remains completable, and a
new trigger fails. -/
theorem pause_frame_witness :
    (pause_workflow 30 ⟨[⟨"wf1", "n", "", "manual", "all_leads", "active",
        [⟨"s1", "t1", 0, 0, 1⟩], 0, 0⟩],
        [⟨"e1", "wf1", "lead1", "active", 0, some 10, 5, none, none⟩]⟩
      "wf1").2.executions = [⟨"e1", "wf1", "lead1", "active", 0, some 10, 5, none, none⟩] ∧
    (∀ t, get_pending_executions t (pause_workflow 30 ⟨[⟨"wf1", "n", "", "manual",
        "all_leads", "active", [⟨"s1", "t1", 0, 0, 1⟩], 0, 0⟩],
        [⟨"e1", "wf1", "lead1", "active", 0, some 10, 5, none, none⟩]⟩ "wf1").2 =
      get_pending_executions t ⟨[⟨"wf1", "n", "", "manual", "all_leads", "active",
        [⟨"s1", "t1", 0, 0, 1⟩], 0, 0⟩],
        [⟨"e1", "wf1", "lead1", "active", 0, some 10, 5, none, none⟩]⟩) ∧
    (complete_execution_step 40 (pause_workflow 30 ⟨[⟨"wf1", "n", "", "manual",
        "all_leads", "active", [⟨"s1", "t1", 0, 0, 1⟩], 0, 0⟩],
        [⟨"e1", "wf1", "lead1", "active", 0, some 10, 5, none, none⟩]⟩ "wf1").2
      "e1" true).1 = true ∧
    trigger_workflow 40 (pause_workflow 30 ⟨[⟨"wf1", "n", "", "manual", "all_leads",
        "active", [⟨"s1", "t1", 0, 0, 1⟩], 0, 0⟩],
        [⟨"e1", "wf1", "lead1", "active", 0, some 10, 5, none, none⟩]⟩ "wf1").2
      "wf1" "lead2" =
      (false, (pause_workflow 30 ⟨[⟨"wf1", "n", "", "manual", "all_leads", "active",
        [⟨"s1", "t1", 0, 0, 1⟩], 0, 0⟩],
        [⟨"e1", "wf1", "lead1", "active", 0, some 10, 5, none, none⟩]⟩ "wf1").2) := by
  have h := pause_frame 30 ⟨[⟨"wf1", "n", "", "manual", "all_leads", "active",
      [⟨"s1", "t1", 0, 0, 1⟩], 0, 0⟩],
      [⟨"e1", "wf1", "lead1", "active", 0, some 10, 5, none, none⟩]⟩ "wf1"
    ⟨"wf1", "n", "", "manual", "all_leads", "active", [⟨"s1", "t1", 0, 0, 1⟩], 0, 0⟩
    (by decide)
  exact ⟨h.1, h.2.2.1,
    h.2.2.2.1 40 "e1" ⟨"e1", "wf1", "lead1", "active", 0, some 10, 5, none, none⟩ true
      (by decide) rfl,
    h.2.2.2.2 40 "lead2"⟩

theorem applyUpdate_empty_steps (now : Nat) (w : EmailWorkflow) :
    (applyUpdate now ({} : WorkflowUpdate) w).steps = w.steps := by
  unfold applyUpdate
  rfl

theorem advanceExecution_success_done (now : Nat) (w2 : EmailWorkflow)
    (a : WorkflowExecution) (h : a.current_step + 1 ≥ w2.steps.length) :
    advanceExecution now w2 true a =
      { a with last_email_sent := some now, current_step := a.current_step + 1, status := "completed", completed_at := some now, next_execution := none } := by
  unfold advanceExecution
  simp [h]

theorem advanceExecution_success_more (now : Nat) (w2 : EmailWorkflow)
    (a : WorkflowExecution) (h : ¬ (a.current_step + 1 ≥ w2.steps.length)) :
    advanceExecution now w2 true a =
      { a with last_email_sent := some now, current_step := a.current_step + 1, next_execution := some (now + stepDelay (w2.steps.getD (a.current_step + 1) ⟨"", "", 0, 0, 0⟩)) } := by
  unfold advanceExecution
  simp [h]

theorem advanceExecution_failure (now : Nat) (w2 : EmailWorkflow)
    (a : WorkflowExecution) :
    advanceExecution now w2 false a =
      { a with last_email_sent := some now, status := "failed", next_execution := none } := by
  unfold advanceExecution
  simp

theorem complete_execution_step_no_exec (now : Nat) (s : WorkflowState) (eid : String)
    (success : Bool)
    (hfe : s.executions.find? (fun e2 => e2.id == eid) = none) :
    complete_execution_step now s eid success = (false, s) := by
  unfold complete_execution_step
  rw [hfe]

/-- C2 counterexample, two parts.  (1) `complete_execution_step` does not check
the execution's status, so completing an already-completed execution of a
one-step workflow pushes `current_step` to `2 > 1 = len(steps)`.
(2) `trigger_workflow` on a zero-step workflow creates an execution with
`current_step = 0 = len(steps)` whose status is `"active"`, not
`"completed"` — so `current_step == len(steps)` does not imply
`status == "completed"` either. -/
theorem step_bound_counterexample :
    ((complete_execution_step 2 (complete_execution_step 1 (trigger_workflow 0
        ⟨[⟨"wf1", "n", "", "manual", "all_leads", "active", [⟨"s1", "t1", 0, 0, 1⟩], 0, 0⟩],
         []⟩ "wf1" "lead1").2 "exec_wf1_lead1_0" true).2 "exec_wf1_lead1_0"
      true).2.executions.map (fun e => e.current_step)) = [2] ∧ (1 : Nat) < 2 ∧
    ((trigger_workflow 0
        ⟨[⟨"wf0", "n", "", "manual", "all_leads", "active", [], 0, 0⟩], []⟩
      "wf0" "lead1").2.executions.map (fun e => (e.current_step, e.status)))
      = [(0, "active")] := by
  exact ⟨rfl, by decide, rfl⟩

/-- C2 amended: for a workflow with `status = "active"` and at least one step,
in every state reachable by triggering and by completing steps of **active**
executions, every execution satisfies `0 ≤ current_step ≤ len(steps)` with
`current_step = len(steps)` exactly for `"completed"` executions. -/
theorem step_bound_invariant (w : EmailWorkflow) (hact : w.status = "active")
    (hne : w.steps ≠ []) (s : WorkflowState) (hr : WfReach w s) :
    ∀ e ∈ s.executions, 0 ≤ e.current_step ∧ e.current_step ≤ w.steps.length ∧
      (e.current_step = w.steps.length ↔ e.status = "completed") := by
  have main : (∃ w2, s.workflows = [w2] ∧ w2.id = w.id ∧ w2.status = "active" ∧
      w2.steps = w.steps) ∧ ∀ e ∈ s.executions, ExecInv w e := by
    induction hr with
    | init => exact ⟨⟨w, rfl, rfl, hact, rfl⟩, by simp⟩
    | trigger s now lid hr ih =>
      rcases ih with ⟨⟨w2, hws, hid, hst, hsteps⟩, hexec⟩
      have hfw : s.workflows.find? (fun x => x.id == w.id) = some w2 := by
        rw [hws]
        exact List.find?_cons_of_pos _ (by simp [hid])
      cases hfe : s.executions.find?
          (fun e => e.workflow_id == w.id && e.lead_id == lid && e.status == "active") with
      | some e =>
        rw [trigger_existing_noop now s w.id lid w2 e hfw hst hfe]
        exact ⟨⟨w2, hws, hid, hst, hsteps⟩, hexec⟩
      | none =>
        rw [trigger_create now s w.id lid w2 hfw hst hfe]
        constructor
        · refine ⟨applyUpdate now {} w2, ?_, ?_, ?_, ?_⟩
          · show updateFirst (fun x => x.id == w.id) (applyUpdate now {}) s.workflows = _
            rw [hws]
            simp [updateFirst, hid]
          · rw [applyUpdate_id]
            exact hid
          · rw [applyUpdate_empty_status]
            exact hst
          · rw [applyUpdate_empty_steps]
            exact hsteps
        · intro e he
          rcases List.mem_append.mp he with he | he
          · exact hexec e he
          · have he2 : e = ⟨"exec_" ++ w.id ++ "_" ++ lid ++ "_" ++ toString now, w.id,
                lid, "active", 0, some (now + firstStepDelay w2.steps), now, none, none⟩ := by
              simpa using he
            subst he2
            refine ⟨rfl, Nat.zero_le _, ?_, ?_⟩
            · intro h0
              exact absurd (List.length_eq_zero.mp h0.symm) hne
            · intro hc
              simp at hc
    | complete s now eid success hr hactive ih =>
      rcases ih with ⟨⟨w2, hws, hid, hst, hsteps⟩, hexec⟩
      cases hfe : s.executions.find? (fun e2 => e2.id == eid) with
      | none =>
        rw [complete_execution_step_no_exec now s eid success hfe]
        exact ⟨⟨w2, hws, hid, hst, hsteps⟩, hexec⟩
      | some e =>
        have hmem := List.mem_of_find?_eq_some hfe
        have heid : e.id = eid := by simpa using List.find?_some hfe
        have hfw : s.workflows.find? (fun x => x.id == e.workflow_id) = some w2 := by
          rw [hws]
          refine List.find?_cons_of_pos _ ?_
          show (w2.id == e.workflow_id) = true
          rw [(hexec e hmem).1, hid]
          simp
        have hstep : complete_execution_step now s eid success =
            (true, { s with executions := updateFirst (fun e2 => e2.id == eid) (advanceExecution now w2 success) s.executions }) := by
          simp only [complete_execution_step, hfe, hfw]
        rw [hstep]
        refine ⟨⟨w2, hws, hid, hst, hsteps⟩, ?_⟩
        intro e2 he2
        rcases mem_updateFirst _ _ _ _ he2 with h | ⟨a, ha, hpa, he2a⟩
        · exact hexec e2 h
        · have hainv := hexec a ha
          have haid : a.id = eid := by simpa using hpa
          have hastat : a.status = "active" := hactive a ha haid
          subst he2a
          rcases hainv with ⟨hwid, hle, hiff⟩
          have hlt : a.current_step < w.steps.length := by
            rcases Nat.lt_or_ge a.current_step w.steps.length with h | h
            · exact h
            · have hcs : a.current_step = w.steps.length := Nat.le_antisymm hle h
              have hcomp := hiff.mp hcs
              rw [hastat] at hcomp
              exact absurd hcomp (by decide)
          cases success with
          | true =>
            by_cases hdone : a.current_step + 1 ≥ w2.steps.length
            · rw [advanceExecution_success_done now w2 a hdone]
              rw [hsteps] at hdone
              have hcs : a.current_step + 1 = w.steps.length := by omega
              refine ⟨hwid, ?_, ?_⟩
              · show a.current_step + 1 ≤ w.steps.length
                omega
              · show a.current_step + 1 = w.steps.length ↔ "completed" = "completed"
                simp [hcs]
            · rw [advanceExecution_success_more now w2 a hdone]
              rw [hsteps] at hdone
              refine ⟨hwid, ?_, ?_, ?_⟩
              · show a.current_step + 1 ≤ w.steps.length
                omega
              · show a.current_step + 1 = w.steps.length → a.status = "completed"
                intro h0
                omega
              · show a.status = "completed" → a.current_step + 1 = w.steps.length
                intro hc
                rw [hastat] at hc
                simp at hc
          | false =>
            rw [advanceExecution_failure now w2 a]
            refine ⟨hwid, ?_, ?_, ?_⟩
            · show a.current_step ≤ w.steps.length
              exact hle
            · show a.current_step = w.steps.length → "failed" = "completed"
              intro h0
              omega
            · show "failed" = "completed" → a.current_step = w.steps.length
              intro hc
              simp at hc
  intro e he
  exact ⟨Nat.zero_le _, (main.2 e he).2.1, (main.2 e he).2.2⟩

/-- C2 witness: the execution created by a concrete trigger of a one-step
workflow satisfies the amended bound. -/
theorem step_bound_invariant_witness :
    0 ≤ (⟨"exec_wf1_lead1_0", "wf1", "lead1", "active", 0, some 0, 0, none, none⟩ :
        WorkflowExecution).current_step ∧
    (⟨"exec_wf1_lead1_0", "wf1", "lead1", "active", 0, some 0, 0, none, none⟩ :
        WorkflowExecution).current_step ≤
      (⟨"wf1", "n", "", "manual", "all_leads", "active", [⟨"s1", "t1", 0, 0, 1⟩], 0, 0⟩ :
        EmailWorkflow).steps.length ∧
    ((⟨"exec_wf1_lead1_0", "wf1", "lead1", "active", 0, some 0, 0, none, none⟩ :
        WorkflowExecution).current_step =
      (⟨"wf1", "n", "", "manual", "all_leads", "active", [⟨"s1", "t1", 0, 0, 1⟩], 0, 0⟩ :
        EmailWorkflow).steps.length ↔
      (⟨"exec_wf1_lead1_0", "wf1", "lead1", "active", 0, some 0, 0, none, none⟩ :
        WorkflowExecution).status = "completed") :=
  step_bound_invariant
    ⟨"wf1", "n", "", "manual", "all_leads", "active", [⟨"s1", "t1", 0, 0, 1⟩], 0, 0⟩
    rfl (by decide) _
    (WfReach.trigger _ 0 "lead1" WfReach.init)
    ⟨"exec_wf1_lead1_0", "wf1", "lead1", "active", 0, some 0, 0, none, none⟩
    (by decide)

theorem splitOnChar_no_sep (c : Char) (l : List Char) (h : c ∉ l) :
    splitOnChar c l = [l] := by
  induction l with
  | nil => rfl
  | cons a as ih =>
    have ha : ¬ a = c := fun hac => h (hac ▸ List.mem_cons_self a as)
    have has : c ∉ as := fun hmem => h (List.mem_cons_of_mem a hmem)
    simp only [splitOnChar, if_neg ha, ih has]

theorem splitOnChar_append (c : Char) (l rest : List Char) (h : c ∉ l) :
    splitOnChar c (l ++ c :: rest) = l :: splitOnChar c rest := by
  induction l with
  | nil => simp [splitOnChar]
  | cons a as ih =>
    have ha : ¬ a = c := fun hac => h (hac ▸ List.mem_cons_self a as)
    have has : c ∉ as := fun hmem => h (List.mem_cons_of_mem a hmem)
    rw [List.cons_append]
    simp only [splitOnChar, if_neg ha, ih has]

theorem map_id_of_mem (l : List α) (f : α → α) (h : ∀ a ∈ l, f a = a) : l.map f = l := by
  induction l with
  | nil => rfl
  | cons a as ih =>
    rw [List.map_cons, h a (List.mem_cons_self a as),
      ih (fun b hb => h b (List.mem_cons_of_mem a hb))]

theorem colon_not_mem_natToChars (n : Nat) : ':' ∉ natToChars n := by
  unfold natToChars
  by_cases h0 : n = 0
  · rw [if_pos h0]
    decide
  · rw [if_neg h0]
    intro hmem
    rw [List.mem_reverse, List.mem_map] at hmem
    obtain ⟨d, hd, hcd⟩ := hmem
    have hlt := Nat.digits_lt_base (by norm_num) hd
    interval_cases d <;> exact absurd hcd (by decide)

theorem charsToNat?_natToChars (n : Nat) : charsToNat? (natToChars n) = some n := by
  by_cases h0 : n = 0
  · subst h0
    decide
  · unfold natToChars charsToNat?
    rw [if_neg h0]
    have hne : Nat.digits 10 n ≠ [] := Nat.digits_ne_nil_iff_ne_zero.mpr h0
    have hdig : ∀ d ∈ Nat.digits 10 n, d < 10 :=
      fun d hd => Nat.digits_lt_base (by norm_num) hd
    have hcond : (((Nat.digits 10 n).map (fun d => Char.ofNat (48 + d))).reverse ≠ [] ∧
        (((Nat.digits 10 n).map (fun d => Char.ofNat (48 + d))).reverse).all
          (fun c => c.isDigit)) := by
      constructor
      · simp [hne]
      · rw [List.all_eq_true]
        intro c hc
        rw [List.mem_reverse, List.mem_map] at hc
        obtain ⟨d, hd, hcd⟩ := hc
        have := hdig d hd
        subst hcd
        interval_cases d <;> decide
    rw [if_pos hcond]
    congr 1
    rw [List.map_reverse, List.reverse_reverse, List.map_map]
    rw [map_id_of_mem _ _ (fun d hd => by
      show charToDigit (Char.ofNat (48 + d)) = d
      have := hdig d hd
      interval_cases d <;> decide)]
    exact Nat.ofDigits_digits 10 n

/-- C9 counterexample: for the email `"a:b"` (containing the separator) the
round trip fails at once — the verifier splits the token into four parts and
returns `None` even though the token is fresh (age 0 < 30 days) and
untampered.  The claim's "for every email" is therefore false. -/
theorem token_roundtrip_counterexample :
    verify_unsubscribe_token (fun _ => ['h']) ['k'] 0
      (generate_unsubscribe_token (fun _ => ['h']) ['k'] 0 ('a' :: ':' :: ['b'])) = none ∧
    (0 : Nat) < 0 + 2592000 := by
  exact ⟨rfl, by decide⟩

/-- C9 amended: for every email **not containing `':'`** (and any digest
function with colon-free output, as sha256 hex digests are), a generated token
verifies within the 30-day window to the embedded email and timestamp; a token
whose digest field differs from the recomputation verifies to `None`; and a
token older than 30 days verifies to `None`. -/
theorem unsubscribe_token_roundtrip (digest : List Char → List Char)
    (secret email : List Char) (issue : Nat)
    (hd : ∀ l, ':' ∉ digest l) (he : ':' ∉ email) :
    (∀ now, now < issue + 2592000 →
      verify_unsubscribe_token digest secret now
          (generate_unsubscribe_token digest secret issue email)
        = some (email, natToChars issue)) ∧
    (∀ now h2, h2 ≠ digest (email ++ ':' :: (natToChars issue ++ ':' :: secret)) →
      ':' ∉ h2 →
      verify_unsubscribe_token digest secret now
          (email ++ ':' :: (natToChars issue ++ ':' :: h2)) = none) ∧
    (∀ now, issue + 2592000 < now →
      verify_unsubscribe_token digest secret now
          (generate_unsubscribe_token digest secret issue email) = none) := by
  have hsplit : ∀ h2 : List Char, ':' ∉ h2 →
      splitOnChar ':' (email ++ ':' :: (natToChars issue ++ ':' :: h2)) =
        [email, natToChars issue, h2] := by
    intro h2 hh2
    rw [splitOnChar_append ':' email _ he,
      splitOnChar_append ':' (natToChars issue) _ (colon_not_mem_natToChars issue),
      splitOnChar_no_sep ':' h2 hh2]
  refine ⟨?_, ?_, ?_⟩
  · intro now hnow
    unfold verify_unsubscribe_token generate_unsubscribe_token
    rw [hsplit _ (hd _)]
    simp only [ne_eq, charsToNat?_natToChars]
    rw [if_neg (by simp), if_neg (by omega)]
  · intro now h2 hne hh2
    unfold verify_unsubscribe_token
    rw [hsplit h2 hh2]
    simp only [ne_eq]
    rw [if_pos hne]
  · intro now hnow
    unfold verify_unsubscribe_token generate_unsubscribe_token
    rw [hsplit _ (hd _)]
    simp only [ne_eq, charsToNat?_natToChars]
    rw [if_neg (by simp), if_pos (by omega)]

/-- C9 witness: a concrete fresh round trip for `"a@b.com"`. -/
theorem unsubscribe_token_roundtrip_witness :
    verify_unsubscribe_token (fun _ => ['h']) ['k'] 5
        (generate_unsubscribe_token (fun _ => ['h']) ['k'] 0 "a@b.com".data)
      = some ("a@b.com".data, natToChars 0) :=
  (unsubscribe_token_roundtrip (fun _ => ['h']) ['k'] "a@b.com".data 0
    (fun l hmem => absurd (List.mem_singleton.mp hmem) (by decide)) (by decide)).1 5
    (by decide)
